import Mathlib

/-!
Shallow embedding of `Sources/Main.c` of the Image_Viewer repository:
the event-loop shell (`main`) that translates SDL events into Viewport
Engine calls.  The Viewport Engine itself (`Viewport.c`) and the
configuration header are external to the embedded code; the shell's
calls into the engine are recorded as an observable trace of `Call`
values, and the configuration constants (maximum zoom factor, frame
period) are parameters.
-/

namespace ImageViewer

/-- Key identities the shell distinguishes in `SDL_KEYDOWN` events:
`SDLK_f`, `SDLK_q`, `SDLK_s`, and anything else. -/
inductive Key
  | keyF
  | keyQ
  | keyS
  | keyOther
deriving DecidableEq, Repr

/-- The SDL events cases the `switch` in `main` distinguishes.
`windowSizeChanged` carries `Event.window.data1/data2`; `windowOther`
is an `SDL_WINDOWEVENT` whose sub-event is not `SIZE_CHANGED`;
`mouseWheel` carries `Event.wheel.y` together with the cursor position
that `SDL_GetMouseState` reports at that moment; `mouseMotion`
carries `Event.motion.x/y`; `other` is any unhandled event type. -/
inductive Event
  | quit
  | windowSizeChanged (w h : Int)
  | windowOther
  | mouseWheel (wheelY : Int) (mouseX mouseY : Int)
  | keyDown (key : Key)
  | mouseMotion (x y : Int)
  | other
deriving DecidableEq, Repr

/-- Observable calls the shell makes into the Viewport Engine. -/
inductive Call
  | setDimensions (w h : Int)
  | setZoomedArea (x y : Int) (factor : Nat)
  | setFlippingMode (mode : Nat)
  | scaleImage
  | drawImage
deriving DecidableEq, Repr

/-- Modelled from the spec: `VIEWPORT_FLIPPING_MODE_IDS_COUNT` comes
from `Viewport.h`, which is not part of the available sources; the spec
fixes the flip-mode set to the 4-cycle NONE, HORIZONTAL, VERTICAL,
BOTH. -/
def flippingModesCount : Nat := 4

/-- The mutable state of `main` that the claims are about:
`Zoom_Factor` (an `int`, initialized to 1, always positive) and
`Flipping_Mode` (initialized to `VIEWPORT_FLIPPING_MODE_ID_NORMAL = 0`,
incremented modulo `flippingModesCount`). -/
structure ShellState where
  zoomFactor : Nat
  flippingMode : Nat
deriving DecidableEq, Repr

/-- Initial state of `main`: `Zoom_Factor = 1`,
`Flipping_Mode = VIEWPORT_FLIPPING_MODE_ID_NORMAL`. -/
def initState : ShellState := { zoomFactor := 1, flippingMode := 0 }

/-- Exit statuses of the process (`EXIT_SUCCESS` / `EXIT_FAILURE`). -/
inductive ExitStatus
  | success
  | failure
deriving DecidableEq, Repr

/-- Control outcome of processing events: either the shell executed a
`return` statement with the given status, or it is still running with
the given state. -/
inductive LoopCtl
  | exited (status : ExitStatus)
  | running (s : ShellState)
deriving DecidableEq, Repr

/-- The `for (i = 1; i <= Zoom_Factor; i <<= 1)` loop of the
`SDL_MOUSEMOTION` case: the successive values of `i`, starting from
`i` and doubling while `i ≤ z` (the `0 < i` guard is vacuous for the
shell, which starts the loop at 1; it makes the recursion
terminating). -/
def zoomSteps (i z : Nat) : List Nat :=
  if h : 0 < i ∧ i ≤ z then i :: zoomSteps (2 * i) z else []
termination_by z + 1 - i
decreasing_by omega

/-- One step of the flip toggle: `Flipping_Mode++` followed by the
wrap to 0 when it reaches `flippingModesCount`. -/
def flipNext (m : Nat) : Nat :=
  if m + 1 ≥ flippingModesCount then 0 else m + 1

/-- The `SDL_MOUSEWHEEL` update of `Zoom_Factor`:
`if (Event.wheel.y > 0) { if (Zoom_Factor < MAX) Zoom_Factor *= 2; }
else { if (Zoom_Factor > 1) Zoom_Factor /= 2; }`. -/
def wheelZoom (maxZoom z : Nat) (wheelY : Int) : Nat :=
  if wheelY > 0 then
    if z < maxZoom then z * 2 else z
  else
    if z > 1 then z / 2 else z

/-- The `switch (Event.type)` body of `main` for one event: the calls
made into the Viewport Engine, in order, and either the new shell
state or the exit status of an executed `return`. -/
def handleEvent (maxZoom : Nat) (s : ShellState) : Event → List Call × LoopCtl
  | Event.quit => ([], LoopCtl.exited ExitStatus.success)
  | Event.windowSizeChanged w h =>
      ([Call.setDimensions w h],
       LoopCtl.running { s with zoomFactor := 1 })
  | Event.windowOther => ([], LoopCtl.running s)
  | Event.mouseWheel wheelY mouseX mouseY =>
      ([Call.setZoomedArea mouseX mouseY (wheelZoom maxZoom s.zoomFactor wheelY)],
       LoopCtl.running { s with zoomFactor := wheelZoom maxZoom s.zoomFactor wheelY })
  | Event.keyDown Key.keyF =>
      let m := flipNext s.flippingMode
      ([Call.setFlippingMode m],
       LoopCtl.running { zoomFactor := 1, flippingMode := m })
  | Event.keyDown Key.keyQ => ([], LoopCtl.exited ExitStatus.success)
  | Event.keyDown Key.keyS =>
      ([Call.scaleImage], LoopCtl.running { s with zoomFactor := 1 })
  | Event.keyDown Key.keyOther => ([], LoopCtl.running s)
  | Event.mouseMotion x y =>
      if s.zoomFactor > 1 then
        ((zoomSteps 1 s.zoomFactor).map (fun i => Call.setZoomedArea x y i),
         LoopCtl.running s)
      else ([], LoopCtl.running s)
  | Event.other => ([], LoopCtl.running s)

/-- The inner `while (SDL_PollEvent(&Event))` loop draining a list of
pending events: accumulates the calls made before a `return` (if any)
and yields the control outcome. -/
def processEvents (maxZoom : Nat) (s : ShellState) : List Event → List Call × LoopCtl
  | [] => ([], LoopCtl.running s)
  | e :: rest =>
      match handleEvent maxZoom s e with
      | (cs, LoopCtl.exited st) => (cs, LoopCtl.exited st)
      | (cs, LoopCtl.running s') =>
          let r := processEvents maxZoom s' rest
          (cs ++ r.1, r.2)

/-- One iteration of the outer `while (1)` loop, event-processing part:
drain the pending events, then (unless a `return` was executed) call
`ViewportDrawImage` once. -/
def frameStep (maxZoom : Nat) (s : ShellState) (events : List Event) : List Call × LoopCtl :=
  match processEvents maxZoom s events with
  | (cs, LoopCtl.exited st) => (cs, LoopCtl.exited st)
  | (cs, LoopCtl.running s') => (cs ++ [Call.drawImage], LoopCtl.running s')

/-- The outer `while (1)` loop run over a finite list of frames, each
frame being the list of events pending in that iteration.
`LoopCtl.running` means the loop is still going after these frames. -/
def runLoop (maxZoom : Nat) (s : ShellState) : List (List Event) → List Call × LoopCtl
  | [] => ([], LoopCtl.running s)
  | frame :: rest =>
      match frameStep maxZoom s frame with
      | (cs, LoopCtl.exited st) => (cs, LoopCtl.exited st)
      | (cs, LoopCtl.running s') =>
          let r := runLoop maxZoom s' rest
          (cs ++ r.1, r.2)

/-- The frame-pacing tail of each iteration:
`if (Elapsed_Time < PERIOD) SDL_Delay(PERIOD - Elapsed_Time);`.
`some d` means `SDL_Delay(d)` is called; `none` means no sleep. -/
def frameSleep (period elapsed : Nat) : Option Nat :=
  if elapsed < period then some (period - elapsed) else none

/-- One full iteration of the main loop: the event processing and draw
(first component) together with the sleep decision made from the
elapsed time measured for this iteration (second component). -/
def loopIteration (maxZoom period : Nat) (s : ShellState) (events : List Event)
    (elapsed : Nat) : (List Call × LoopCtl) × Option Nat :=
  (frameStep maxZoom s events, frameSleep period elapsed)

/-- Outcome of the startup code of `main` before the event loop:
either a `return` (recording whether the usage text was printed) or
fall-through into the loop. -/
inductive StartupOutcome
  | exit (printedUsage : Bool) (status : ExitStatus)
  | enterLoop
deriving DecidableEq, Repr

/-- Success/failure of the external collaborators `main` invokes
during startup, in the order it invokes them. -/
structure Env where
  sdlInitOk : Bool
  imgInitOk : Bool
  imageLoadOk : Bool
  viewportInitOk : Bool
deriving DecidableEq, Repr

/-- The startup section of `main` (lines 54-97): argument-count check,
`--help` check, `SDL_Init`, `IMG_Init`, `IMG_Load`,
`ViewportInitialize`; `argv` is the full argument vector including the
program name, so `argc = argv.length`. -/
def mainStartup (argv : List String) (env : Env) : StartupOutcome :=
  if argv.length ≠ 2 then StartupOutcome.exit true ExitStatus.failure
  else if argv.getD 1 "" = "--help" then StartupOutcome.exit true ExitStatus.success
  else if !env.sdlInitOk then StartupOutcome.exit false ExitStatus.failure
  else if !env.imgInitOk then StartupOutcome.exit false ExitStatus.failure
  else if !env.imageLoadOk then StartupOutcome.exit false ExitStatus.failure
  else if !env.viewportInitOk then StartupOutcome.exit false ExitStatus.failure
  else StartupOutcome.enterLoop

/-- Whether an event makes the loop `return` (the quit signals:
`SDL_QUIT`, or `SDL_KEYDOWN` with `SDLK_q`). -/
def isQuitEvent : Event → Bool
  | Event.quit => true
  | Event.keyDown Key.keyQ => true
  | _ => false

/-- The zoom invariant of the shell: the factor is a power of two
between 1 and the configured maximum. -/
def ZoomInv (maxZoom z : Nat) : Prop := (∃ k, z = 2 ^ k) ∧ 1 ≤ z ∧ z ≤ maxZoom

/-- The factor of every `setZoomedArea` call satisfies the zoom
invariant; other calls carry no factor. -/
def CallFactorOK (maxZoom : Nat) : Call → Prop
  | Call.setZoomedArea _ _ f => ZoomInv maxZoom f
  | _ => True

/-- The mode of every `setFlippingMode` call lies in the flip-mode set;
other calls carry no mode. -/
def CallModeOK : Call → Prop
  | Call.setFlippingMode m => m < flippingModesCount
  | _ => True

/-! ### Lemmas about the mouse-motion zoom-step loop -/

theorem zoomSteps_pos (i z : Nat) (h1 : 0 < i) (h2 : i ≤ z) :
    zoomSteps i z = i :: zoomSteps (2 * i) z := by
  rw [zoomSteps]
  simp [h1, h2]

theorem zoomSteps_stop (i z : Nat) (h : ¬(0 < i ∧ i ≤ z)) :
    zoomSteps i z = [] := by
  rw [zoomSteps]
  simp only [dif_neg h]

theorem zoomSteps_pow (d j : Nat) :
    zoomSteps (2 ^ j) (2 ^ (j + d)) = (List.range (d + 1)).map (fun t => 2 ^ (j + t)) := by
  induction d generalizing j with
  | zero =>
      rw [Nat.add_zero,
        zoomSteps_pos _ _ (pow_pos (by norm_num) j) le_rfl]
      have hstop : ¬(0 < 2 * 2 ^ j ∧ 2 * 2 ^ j ≤ 2 ^ j) := by
        intro hc
        have : 2 ^ j < 2 * 2 ^ j := by
          have hp : (0 : Nat) < 2 ^ j := pow_pos (by norm_num) j
          omega
        omega
      rw [zoomSteps_stop _ _ hstop]
      simp [List.range_succ]
  | succ d ih =>
      have h1 : (0 : Nat) < 2 ^ j := pow_pos (by norm_num) j
      have h2 : 2 ^ j ≤ 2 ^ (j + (d + 1)) :=
        Nat.pow_le_pow_right (by norm_num) (by omega)
      rw [zoomSteps_pos _ _ h1 h2]
      have h3 : 2 * 2 ^ j = 2 ^ (j + 1) := by
        rw [Nat.pow_succ]; ring
      have h4 : j + (d + 1) = (j + 1) + d := by omega
      rw [h3, h4, ih (j + 1)]
      nth_rewrite 2 [List.range_succ_eq_map]
      simp only [List.map_cons, List.map_map, Nat.add_zero]
      congr 1
      apply List.map_congr_left
      intro t _
      simp only [Function.comp]
      congr 1
      omega

theorem zoomSteps_one_pow (k : Nat) :
    zoomSteps 1 (2 ^ k) = (List.range (k + 1)).map (fun t => 2 ^ t) := by
  have h := zoomSteps_pow k 0
  simpa using h

/-! ### Preservation of the zoom invariant -/

theorem pow_two_lt_exponent (a m : Nat) (h : 2 ^ a < 2 ^ m) : a < m := by
  by_contra hc
  push_neg at hc
  have hle : 2 ^ m ≤ 2 ^ a := Nat.pow_le_pow_right (by norm_num) hc
  omega

theorem wheelZoom_inv (maxZoom z : Nat) (hmax : ∃ m, maxZoom = 2 ^ m)
    (hz : ZoomInv maxZoom z) (wheelY : Int) :
    ZoomInv maxZoom (wheelZoom maxZoom z wheelY) := by
  obtain ⟨m, rfl⟩ := hmax
  obtain ⟨⟨a, rfl⟩, h1, h2⟩ := hz
  unfold wheelZoom
  split
  · split
    · refine ⟨⟨a + 1, by ring⟩, by have hp : 1 ≤ 2 ^ a := Nat.one_le_two_pow; omega, ?_⟩
      have ha : a < m := pow_two_lt_exponent a m (by omega)
      calc 2 ^ a * 2 = 2 ^ (a + 1) := by rw [Nat.pow_succ]
        _ ≤ 2 ^ m := Nat.pow_le_pow_right (by norm_num) (by omega)
    · exact ⟨⟨a, rfl⟩, h1, h2⟩
  · split
    · rename_i hgt
      obtain ⟨b, rfl⟩ : ∃ b, a = b + 1 := by
        rcases a with _ | b
        · simp at hgt
        · exact ⟨b, rfl⟩
      have hhalf : 2 ^ (b + 1) / 2 = 2 ^ b := by
        rw [Nat.pow_succ, Nat.mul_div_cancel _ (by norm_num)]
      rw [hhalf]
      refine ⟨⟨b, rfl⟩, Nat.one_le_two_pow, ?_⟩
      calc 2 ^ b ≤ 2 ^ (b + 1) := Nat.pow_le_pow_right (by norm_num) (by omega)
        _ ≤ 2 ^ m := h2
    · exact ⟨⟨a, rfl⟩, h1, h2⟩

theorem handleEvent_inv (maxZoom : Nat) (hmax : ∃ m, maxZoom = 2 ^ m)
    (s s' : ShellState) (hs : ZoomInv maxZoom s.zoomFactor) (e : Event)
    (cs : List Call) (h : handleEvent maxZoom s e = (cs, LoopCtl.running s')) :
    ZoomInv maxZoom s'.zoomFactor := by
  have hone : ZoomInv maxZoom 1 := by
    obtain ⟨m, rfl⟩ := hmax
    exact ⟨⟨0, rfl⟩, le_rfl, Nat.one_le_two_pow⟩
  cases e with
  | quit => simp [handleEvent] at h
  | windowSizeChanged w hh =>
      simp only [handleEvent, Prod.mk.injEq, LoopCtl.running.injEq] at h
      rw [← h.2]
      exact hone
  | windowOther =>
      simp only [handleEvent, Prod.mk.injEq, LoopCtl.running.injEq] at h
      rw [← h.2]
      exact hs
  | mouseWheel wheelY mouseX mouseY =>
      simp only [handleEvent, Prod.mk.injEq, LoopCtl.running.injEq] at h
      rw [← h.2]
      exact wheelZoom_inv maxZoom s.zoomFactor hmax hs wheelY
  | keyDown k =>
      cases k with
      | keyF =>
          simp only [handleEvent, Prod.mk.injEq, LoopCtl.running.injEq] at h
          rw [← h.2]
          exact hone
      | keyQ => simp [handleEvent] at h
      | keyS =>
          simp only [handleEvent, Prod.mk.injEq, LoopCtl.running.injEq] at h
          rw [← h.2]
          exact hone
      | keyOther =>
          simp only [handleEvent, Prod.mk.injEq, LoopCtl.running.injEq] at h
          rw [← h.2]
          exact hs
  | mouseMotion x y =>
      simp only [handleEvent] at h
      split at h <;>
        · simp only [Prod.mk.injEq, LoopCtl.running.injEq] at h
          rw [← h.2]
          exact hs
  | other =>
      simp only [handleEvent, Prod.mk.injEq, LoopCtl.running.injEq] at h
      rw [← h.2]
      exact hs

theorem handleEvent_calls_ok (maxZoom : Nat) (hmax : ∃ m, maxZoom = 2 ^ m)
    (s : ShellState) (hs : ZoomInv maxZoom s.zoomFactor) (e : Event) :
    ∀ c ∈ (handleEvent maxZoom s e).1, CallFactorOK maxZoom c := by
  cases e with
  | quit => simp [handleEvent]
  | windowSizeChanged w h => simp [handleEvent, CallFactorOK]
  | windowOther => simp [handleEvent]
  | mouseWheel wheelY mouseX mouseY =>
      simp only [handleEvent, List.mem_singleton]
      intro c hc
      rw [hc]
      exact wheelZoom_inv maxZoom s.zoomFactor hmax hs wheelY
  | keyDown k => cases k <;> simp [handleEvent, CallFactorOK]
  | mouseMotion x y =>
      simp only [handleEvent]
      split
      · rename_i hgt
        obtain ⟨⟨k, hk⟩, h1, h2⟩ := hs
        intro c hc
        rw [hk] at hc
        rw [zoomSteps_one_pow] at hc
        simp only [List.mem_map, List.mem_range] at hc
        obtain ⟨t, ⟨u, hu, rfl⟩, rfl⟩ := hc
        refine ⟨⟨u, rfl⟩, Nat.one_le_two_pow, ?_⟩
        calc 2 ^ u ≤ 2 ^ k := Nat.pow_le_pow_right (by norm_num) (by omega)
          _ ≤ maxZoom := by rw [← hk]; exact h2
      · simp
  | other => simp [handleEvent]

theorem processEvents_inv (maxZoom : Nat) (hmax : ∃ m, maxZoom = 2 ^ m) :
    ∀ (evs : List Event) (s : ShellState), ZoomInv maxZoom s.zoomFactor →
      (∀ c ∈ (processEvents maxZoom s evs).1, CallFactorOK maxZoom c) ∧
      (∀ s', (processEvents maxZoom s evs).2 = LoopCtl.running s' →
        ZoomInv maxZoom s'.zoomFactor) := by
  intro evs
  induction evs with
  | nil =>
      intro s hs
      refine ⟨by simp [processEvents], ?_⟩
      intro s' h
      simp only [processEvents, LoopCtl.running.injEq] at h
      rw [← h]
      exact hs
  | cons e rest ih =>
      intro s hs
      rcases he : handleEvent maxZoom s e with ⟨cs, ctl⟩
      cases ctl with
      | exited st =>
          constructor
          · intro c hc
            simp only [processEvents, he] at hc
            have := handleEvent_calls_ok maxZoom hmax s hs e
            rw [he] at this
            exact this c hc
          · intro s' h
            simp [processEvents, he] at h
      | running s1 =>
          have hs1 : ZoomInv maxZoom s1.zoomFactor :=
            handleEvent_inv maxZoom hmax s s1 hs e cs he
          obtain ⟨ihc, ihs⟩ := ih s1 hs1
          constructor
          · intro c hc
            simp only [processEvents, he, List.mem_append] at hc
            rcases hc with hc | hc
            · have := handleEvent_calls_ok maxZoom hmax s hs e
              rw [he] at this
              exact this c hc
            · exact ihc c hc
          · intro s' h
            simp only [processEvents, he] at h
            exact ihs s' h

theorem frameStep_inv (maxZoom : Nat) (hmax : ∃ m, maxZoom = 2 ^ m)
    (evs : List Event) (s : ShellState) (hs : ZoomInv maxZoom s.zoomFactor) :
    (∀ c ∈ (frameStep maxZoom s evs).1, CallFactorOK maxZoom c) ∧
    (∀ s', (frameStep maxZoom s evs).2 = LoopCtl.running s' →
      ZoomInv maxZoom s'.zoomFactor) := by
  obtain ⟨hc, hsn⟩ := processEvents_inv maxZoom hmax evs s hs
  rcases hp : processEvents maxZoom s evs with ⟨cs, ctl⟩
  rw [hp] at hc hsn
  cases ctl with
  | exited st =>
      refine ⟨?_, ?_⟩
      · intro c hcm
        simp only [frameStep, hp] at hcm
        exact hc c hcm
      · intro s' h
        simp [frameStep, hp] at h
  | running s1 =>
      refine ⟨?_, ?_⟩
      · intro c hcm
        simp only [frameStep, hp, List.mem_append, List.mem_singleton] at hcm
        rcases hcm with hcm | hcm
        · exact hc c hcm
        · rw [hcm]
          trivial
      · intro s' h
        simp only [frameStep, hp, LoopCtl.running.injEq] at h
        rw [← h]
        exact hsn s1 rfl

theorem runLoop_inv (maxZoom : Nat) (hmax : ∃ m, maxZoom = 2 ^ m) :
    ∀ (frames : List (List Event)) (s : ShellState), ZoomInv maxZoom s.zoomFactor →
      (∀ c ∈ (runLoop maxZoom s frames).1, CallFactorOK maxZoom c) ∧
      (∀ s', (runLoop maxZoom s frames).2 = LoopCtl.running s' →
        ZoomInv maxZoom s'.zoomFactor) := by
  intro frames
  induction frames with
  | nil =>
      intro s hs
      refine ⟨by simp [runLoop], ?_⟩
      intro s' h
      simp only [runLoop, LoopCtl.running.injEq] at h
      rw [← h]
      exact hs
  | cons frame rest ih =>
      intro s hs
      obtain ⟨hc, hsn⟩ := frameStep_inv maxZoom hmax frame s hs
      rcases hf : frameStep maxZoom s frame with ⟨cs, ctl⟩
      rw [hf] at hc hsn
      cases ctl with
      | exited st =>
          constructor
          · intro c hcm
            simp only [runLoop, hf] at hcm
            exact hc c hcm
          · intro s' h
            simp [runLoop, hf] at h
      | running s1 =>
          obtain ⟨ihc, ihs⟩ := ih s1 (hsn s1 rfl)
          constructor
          · intro c hcm
            simp only [runLoop, hf, List.mem_append] at hcm
            rcases hcm with hcm | hcm
            · exact hc c hcm
            · exact ihc c hcm
          · intro s' h
            simp only [runLoop, hf] at h
            exact ihs s' h

/-! ### Exit statuses, draw calls and quit events -/

theorem handleEvent_exit_success (maxZoom : Nat) (s : ShellState) (e : Event)
    (cs : List Call) (st : ExitStatus)
    (h : handleEvent maxZoom s e = (cs, LoopCtl.exited st)) :
    st = ExitStatus.success := by
  cases e with
  | keyDown k => cases k <;> simp_all [handleEvent]
  | mouseMotion x y =>
      simp only [handleEvent] at h
      split at h <;> simp_all
  | _ => simp_all [handleEvent]

theorem processEvents_exit_success (maxZoom : Nat) :
    ∀ (evs : List Event) (s : ShellState) (cs : List Call) (st : ExitStatus),
      processEvents maxZoom s evs = (cs, LoopCtl.exited st) → st = ExitStatus.success := by
  intro evs
  induction evs with
  | nil => intro s cs st h; simp [processEvents] at h
  | cons e rest ih =>
      intro s cs st h
      rcases he : handleEvent maxZoom s e with ⟨cs1, ctl⟩
      cases ctl with
      | exited st1 =>
          simp only [processEvents, he, Prod.mk.injEq, LoopCtl.exited.injEq] at h
          rw [← h.2]
          exact handleEvent_exit_success maxZoom s e cs1 st1 he
      | running s1 =>
          simp only [processEvents, he, Prod.mk.injEq] at h
          exact ih s1 _ st (by rw [← h.2])

theorem frameStep_exit_success (maxZoom : Nat) (s : ShellState) (evs : List Event)
    (cs : List Call) (st : ExitStatus)
    (h : frameStep maxZoom s evs = (cs, LoopCtl.exited st)) :
    st = ExitStatus.success := by
  rcases hp : processEvents maxZoom s evs with ⟨cs1, ctl⟩
  cases ctl with
  | exited st1 =>
      simp only [frameStep, hp, Prod.mk.injEq, LoopCtl.exited.injEq] at h
      rw [← h.2]
      exact processEvents_exit_success maxZoom evs s cs1 st1 hp
  | running s1 => simp [frameStep, hp] at h

theorem runLoop_exit_success (maxZoom : Nat) :
    ∀ (frames : List (List Event)) (s : ShellState) (cs : List Call) (st : ExitStatus),
      runLoop maxZoom s frames = (cs, LoopCtl.exited st) → st = ExitStatus.success := by
  intro frames
  induction frames with
  | nil => intro s cs st h; simp [runLoop] at h
  | cons frame rest ih =>
      intro s cs st h
      rcases hf : frameStep maxZoom s frame with ⟨cs1, ctl⟩
      cases ctl with
      | exited st1 =>
          simp only [runLoop, hf, Prod.mk.injEq, LoopCtl.exited.injEq] at h
          rw [← h.2]
          exact frameStep_exit_success maxZoom s frame cs1 st1 hf
      | running s1 =>
          simp only [runLoop, hf, Prod.mk.injEq] at h
          exact ih s1 _ st (by rw [← h.2])

theorem handleEvent_no_draw (maxZoom : Nat) (s : ShellState) (e : Event) :
    Call.drawImage ∉ (handleEvent maxZoom s e).1 := by
  cases e with
  | keyDown k => cases k <;> simp [handleEvent]
  | mouseMotion x y =>
      simp only [handleEvent]
      split <;> simp
  | _ => simp [handleEvent]

theorem processEvents_no_draw (maxZoom : Nat) :
    ∀ (evs : List Event) (s : ShellState),
      Call.drawImage ∉ (processEvents maxZoom s evs).1 := by
  intro evs
  induction evs with
  | nil => intro s; simp [processEvents]
  | cons e rest ih =>
      intro s
      rcases he : handleEvent maxZoom s e with ⟨cs, ctl⟩
      have hnd : Call.drawImage ∉ cs := by
        have := handleEvent_no_draw maxZoom s e
        rw [he] at this
        exact this
      cases ctl with
      | exited st => simpa [processEvents, he] using hnd
      | running s1 =>
          simp only [processEvents, he, List.mem_append]
          push_neg
          exact ⟨hnd, ih s1⟩

theorem processEvents_append (maxZoom : Nat) :
    ∀ (l1 l2 : List Event) (s : ShellState),
      processEvents maxZoom s (l1 ++ l2) =
        (match processEvents maxZoom s l1 with
         | (cs, LoopCtl.exited st) => (cs, LoopCtl.exited st)
         | (cs, LoopCtl.running s1) =>
             ((cs ++ (processEvents maxZoom s1 l2).1, (processEvents maxZoom s1 l2).2) :
               List Call × LoopCtl)) := by
  intro l1
  induction l1 with
  | nil =>
      intro l2 s
      simp [processEvents]
  | cons e rest ih =>
      intro l2 s
      rcases he : handleEvent maxZoom s e with ⟨cs, ctl⟩
      cases ctl with
      | exited st => simp [processEvents, he]
      | running s1 =>
          rcases hp : processEvents maxZoom s1 rest with ⟨cs2, ctl2⟩
          have hil := ih l2 s1
          rw [hp] at hil
          cases ctl2 with
          | exited st2 => simp [processEvents, he, hp, hil]
          | running s2 => simp [processEvents, he, hp, hil]

theorem handleEvent_quit (maxZoom : Nat) (s : ShellState) (e : Event)
    (h : isQuitEvent e = true) :
    handleEvent maxZoom s e = ([], LoopCtl.exited ExitStatus.success) := by
  cases e with
  | quit => rfl
  | keyDown k => cases k <;> simp_all [isQuitEvent, handleEvent]
  | _ => simp_all [isQuitEvent]

/-! ### Flip-mode calls -/

theorem flipNext_lt (m : Nat) : flipNext m < flippingModesCount := by
  unfold flipNext flippingModesCount
  split <;> omega

theorem handleEvent_modes_ok (maxZoom : Nat) (s : ShellState) (e : Event) :
    ∀ c ∈ (handleEvent maxZoom s e).1, CallModeOK c := by
  cases e with
  | keyDown k =>
      cases k <;> simp [handleEvent, CallModeOK]
      exact flipNext_lt s.flippingMode
  | mouseMotion x y =>
      simp only [handleEvent]
      split
      · intro c hc
        simp only [List.mem_map] at hc
        obtain ⟨i, _, rfl⟩ := hc
        trivial
      · simp
  | _ => simp [handleEvent, CallModeOK]

theorem processEvents_modes_ok (maxZoom : Nat) :
    ∀ (evs : List Event) (s : ShellState),
      ∀ c ∈ (processEvents maxZoom s evs).1, CallModeOK c := by
  intro evs
  induction evs with
  | nil => intro s; simp [processEvents]
  | cons e rest ih =>
      intro s
      rcases he : handleEvent maxZoom s e with ⟨cs, ctl⟩
      have hok : ∀ c ∈ cs, CallModeOK c := by
        have := handleEvent_modes_ok maxZoom s e
        rw [he] at this
        exact this
      cases ctl with
      | exited st => simpa [processEvents, he] using hok
      | running s1 =>
          intro c hc
          simp only [processEvents, he, List.mem_append] at hc
          rcases hc with hc | hc
          · exact hok c hc
          · exact ih s1 c hc

theorem frameStep_modes_ok (maxZoom : Nat) (s : ShellState) (evs : List Event) :
    ∀ c ∈ (frameStep maxZoom s evs).1, CallModeOK c := by
  rcases hp : processEvents maxZoom s evs with ⟨cs, ctl⟩
  have hok : ∀ c ∈ cs, CallModeOK c := by
    have := processEvents_modes_ok maxZoom evs s
    rw [hp] at this
    exact this
  cases ctl with
  | exited st => simpa [frameStep, hp] using hok
  | running s1 =>
      intro c hc
      simp only [frameStep, hp, List.mem_append, List.mem_singleton] at hc
      rcases hc with hc | hc
      · exact hok c hc
      · rw [hc]; trivial

theorem runLoop_modes_ok (maxZoom : Nat) :
    ∀ (frames : List (List Event)) (s : ShellState),
      ∀ c ∈ (runLoop maxZoom s frames).1, CallModeOK c := by
  intro frames
  induction frames with
  | nil => intro s; simp [runLoop]
  | cons frame rest ih =>
      intro s
      rcases hf : frameStep maxZoom s frame with ⟨cs, ctl⟩
      have hok : ∀ c ∈ cs, CallModeOK c := by
        have := frameStep_modes_ok maxZoom s frame
        rw [hf] at this
        exact this
      cases ctl with
      | exited st => simpa [runLoop, hf] using hok
      | running s1 =>
          intro c hc
          simp only [runLoop, hf, List.mem_append] at hc
          rcases hc with hc | hc
          · exact hok c hc
          · exact ih s1 c hc

/-! ### The claims -/

/-- C1: for every mouse-motion event received while the zoom factor is
`2 ^ k > 1`, the shell invokes `ViewportSetZoomedArea` once per
power-of-two step `1, 2, 4, …` up to and including the current zoom
factor, in increasing order, each call with the event's cursor
coordinates and that step's factor; when the zoom factor equals 1, a
mouse-motion event invokes no Viewport Engine operation. -/
theorem claim_C1_motion_steps (maxZoom k : Nat) (s : ShellState) (x y : Int) :
    (s.zoomFactor = 2 ^ k → 1 ≤ k →
      handleEvent maxZoom s (Event.mouseMotion x y) =
        ((List.range (k + 1)).map (fun t => Call.setZoomedArea x y (2 ^ t)),
         LoopCtl.running s)) ∧
    (s.zoomFactor = 1 →
      handleEvent maxZoom s (Event.mouseMotion x y) = ([], LoopCtl.running s)) := by
  constructor
  · intro hz hk
    have h2 : (2 : Nat) ^ 1 ≤ 2 ^ k := Nat.pow_le_pow_right (by norm_num) hk
    have h1 : 1 < s.zoomFactor := by
      rw [hz]
      have he : (2 : Nat) ^ 1 = 2 := by norm_num
      omega
    simp only [handleEvent, h1, if_pos]
    rw [hz, zoomSteps_one_pow k, List.map_map]
    simp [Function.comp]
  · intro hz
    simp [handleEvent, hz]

/-- Witness for C1 at zoom factor 4 = 2^2 and at zoom factor 1. -/
theorem claim_C1_motion_steps_witness :
    handleEvent 16 ⟨4, 0⟩ (Event.mouseMotion 10 20) =
      ([Call.setZoomedArea 10 20 1, Call.setZoomedArea 10 20 2,
        Call.setZoomedArea 10 20 4],
       LoopCtl.running ⟨4, 0⟩) ∧
    handleEvent 16 ⟨1, 0⟩ (Event.mouseMotion 10 20) =
      ([], LoopCtl.running ⟨1, 0⟩) := by
  constructor
  · have h := (claim_C1_motion_steps 16 2 ⟨4, 0⟩ 10 20).1 (by norm_num) (by norm_num)
    rw [h]
    rfl
  · exact (claim_C1_motion_steps 16 0 ⟨1, 0⟩ 10 20).2 rfl

/-- C2: after the shell processes a window-resize event (which calls
`ViewportSetDimensions`), an `f` keypress (which calls
`ViewportSetFlippingMode`), or an `s` keypress (which calls
`ViewportScaleImage`), the shell's zoom factor equals 1. -/
theorem claim_C2_reset_to_one (maxZoom : Nat) (s s1 s2 s3 : ShellState)
    (w h : Int) (c1 c2 c3 : List Call)
    (h1 : handleEvent maxZoom s (Event.windowSizeChanged w h) = (c1, LoopCtl.running s1))
    (h2 : handleEvent maxZoom s (Event.keyDown Key.keyF) = (c2, LoopCtl.running s2))
    (h3 : handleEvent maxZoom s (Event.keyDown Key.keyS) = (c3, LoopCtl.running s3)) :
    s1.zoomFactor = 1 ∧ s2.zoomFactor = 1 ∧ s3.zoomFactor = 1 ∧
    c1 = [Call.setDimensions w h] ∧
    c2 = [Call.setFlippingMode (flipNext s.flippingMode)] ∧
    c3 = [Call.scaleImage] := by
  simp only [handleEvent, Prod.mk.injEq, LoopCtl.running.injEq] at h1 h2 h3
  refine ⟨?_, ?_, ?_, h1.1.symm, h2.1.symm, h3.1.symm⟩
  · rw [← h1.2]
  · rw [← h2.2]
  · rw [← h3.2]

/-- Witness for C2 from the state with zoom factor 4 and flip mode 2. -/
theorem claim_C2_reset_to_one_witness :
    (⟨1, 2⟩ : ShellState).zoomFactor = 1 ∧
    (⟨1, 3⟩ : ShellState).zoomFactor = 1 ∧
    (⟨1, 2⟩ : ShellState).zoomFactor = 1 ∧
    ([Call.setDimensions 100 50] : List Call) = [Call.setDimensions 100 50] ∧
    ([Call.setFlippingMode 3] : List Call) =
      [Call.setFlippingMode (flipNext (⟨4, 2⟩ : ShellState).flippingMode)] ∧
    ([Call.scaleImage] : List Call) = [Call.scaleImage] :=
  claim_C2_reset_to_one 8 ⟨4, 2⟩ ⟨1, 2⟩ ⟨1, 3⟩ ⟨1, 2⟩ 100 50
    [Call.setDimensions 100 50] [Call.setFlippingMode 3] [Call.scaleImage]
    rfl rfl rfl

/-- C3: for every sequence of events processed by the event loop,
starting from the initial zoom factor 1, the zoom factor maintained by
the shell is always an integer power of two with
`1 ≤ zoom_factor ≤ MAX_ZOOM`, and so is the factor of every
`ViewportSetZoomedArea` call it makes. -/
theorem claim_C3_zoom_invariant (maxZoom : Nat) (hmax : ∃ m, maxZoom = 2 ^ m)
    (frames : List (List Event)) :
    initState.zoomFactor = 1 ∧
    (∀ c ∈ (runLoop maxZoom initState frames).1, CallFactorOK maxZoom c) ∧
    (∀ s', (runLoop maxZoom initState frames).2 = LoopCtl.running s' →
      ZoomInv maxZoom s'.zoomFactor) := by
  have hinit : ZoomInv maxZoom initState.zoomFactor := by
    obtain ⟨m, rfl⟩ := hmax
    exact ⟨⟨0, rfl⟩, le_rfl, Nat.one_le_two_pow⟩
  obtain ⟨h1, h2⟩ := runLoop_inv maxZoom hmax frames initState hinit
  exact ⟨rfl, h1, h2⟩

/-- Witness for C3 with MAX_ZOOM 16 and a wheel-up frame. -/
theorem claim_C3_zoom_invariant_witness :
    initState.zoomFactor = 1 ∧
    (∀ c ∈ (runLoop 16 initState [[Event.mouseWheel 1 5 6]]).1, CallFactorOK 16 c) ∧
    (∀ s', (runLoop 16 initState [[Event.mouseWheel 1 5 6]]).2 = LoopCtl.running s' →
      ZoomInv 16 s'.zoomFactor) :=
  claim_C3_zoom_invariant 16 ⟨4, by norm_num⟩ [[Event.mouseWheel 1 5 6]]

/-- C4: a mouse-wheel event rotated toward the user (`wheel.y > 0`)
multiplies the zoom factor by 2, leaving it unchanged if it is already
MAX_ZOOM; a wheel event rotated away from the user divides it by 2,
leaving it unchanged if it is already 1; and every wheel event invokes
`ViewportSetZoomedArea` with the resulting factor and the current
cursor position. -/
theorem claim_C4_wheel_transitions (maxZoom : Nat) (s : ShellState)
    (wheelY mouseX mouseY : Int) :
    (wheelY > 0 → s.zoomFactor < maxZoom →
      wheelZoom maxZoom s.zoomFactor wheelY = s.zoomFactor * 2) ∧
    (wheelY > 0 → s.zoomFactor = maxZoom →
      wheelZoom maxZoom s.zoomFactor wheelY = s.zoomFactor) ∧
    (wheelY < 0 → 1 < s.zoomFactor →
      wheelZoom maxZoom s.zoomFactor wheelY = s.zoomFactor / 2) ∧
    (wheelY < 0 → s.zoomFactor = 1 →
      wheelZoom maxZoom s.zoomFactor wheelY = s.zoomFactor) ∧
    handleEvent maxZoom s (Event.mouseWheel wheelY mouseX mouseY) =
      ([Call.setZoomedArea mouseX mouseY (wheelZoom maxZoom s.zoomFactor wheelY)],
       LoopCtl.running { s with zoomFactor := wheelZoom maxZoom s.zoomFactor wheelY }) := by
  refine ⟨?_, ?_, ?_, ?_, rfl⟩
  · intro hy hlt
    simp [wheelZoom, hy, hlt]
  · intro hy heq
    simp [wheelZoom, hy, heq]
  · intro hy hgt
    have hny : ¬ wheelY > 0 := by omega
    simp [wheelZoom, hny, hgt]
  · intro hy heq
    have hny : ¬ wheelY > 0 := by omega
    simp [wheelZoom, hny, heq]

/-- Witness for C4: the four transition shapes at concrete factors, and
the call made for a wheel-up event at factor 2 with MAX_ZOOM 4. -/
theorem claim_C4_wheel_transitions_witness :
    wheelZoom 4 2 1 = 2 * 2 ∧
    wheelZoom 4 4 1 = 4 ∧
    wheelZoom 4 4 (-1) = 4 / 2 ∧
    wheelZoom 4 1 (-1) = 1 ∧
    handleEvent 4 ⟨2, 0⟩ (Event.mouseWheel 1 7 8) =
      ([Call.setZoomedArea 7 8 (wheelZoom 4 2 1)],
       LoopCtl.running ⟨wheelZoom 4 2 1, 0⟩) :=
  ⟨(claim_C4_wheel_transitions 4 ⟨2, 0⟩ 1 7 8).1 (by norm_num) (by norm_num),
   (claim_C4_wheel_transitions 4 ⟨4, 0⟩ 1 7 8).2.1 (by norm_num) rfl,
   (claim_C4_wheel_transitions 4 ⟨4, 0⟩ (-1) 7 8).2.2.1 (by norm_num) (by norm_num),
   (claim_C4_wheel_transitions 4 ⟨1, 0⟩ (-1) 7 8).2.2.2.1 (by norm_num) rfl,
   (claim_C4_wheel_transitions 4 ⟨2, 0⟩ 1 7 8).2.2.2.2⟩

/-- C5: each `f` keypress advances the flip mode by exactly one step
through the fixed 4-cycle with wraparound, so four successive `f`
keypresses return the flip mode to its original value; the mode passed
to `ViewportSetFlippingMode` always lies in the 4-element mode set. -/
theorem claim_C5_flip_cycle (maxZoom z m : Nat) (hm : m < flippingModesCount)
    (frames : List (List Event)) :
    flipNext m = (m + 1) % flippingModesCount ∧
    handleEvent maxZoom ⟨z, m⟩ (Event.keyDown Key.keyF) =
      ([Call.setFlippingMode (flipNext m)], LoopCtl.running ⟨1, flipNext m⟩) ∧
    (processEvents maxZoom ⟨z, m⟩
        [Event.keyDown Key.keyF, Event.keyDown Key.keyF,
         Event.keyDown Key.keyF, Event.keyDown Key.keyF]).2 =
      LoopCtl.running ⟨1, m⟩ ∧
    (∀ c ∈ (runLoop maxZoom initState frames).1, CallModeOK c) := by
  have hm4 : m < 4 := hm
  refine ⟨?_, rfl, ?_, runLoop_modes_ok maxZoom frames initState⟩
  · unfold flipNext flippingModesCount
    split <;> omega
  · have h4 : flipNext (flipNext (flipNext (flipNext m))) = m := by
      interval_cases m <;> rfl
    simp [processEvents, handleEvent, h4]

/-- Witness for C5 starting from flip mode 2 and zoom factor 8. -/
theorem claim_C5_flip_cycle_witness :
    flipNext 2 = (2 + 1) % flippingModesCount ∧
    handleEvent 16 ⟨8, 2⟩ (Event.keyDown Key.keyF) =
      ([Call.setFlippingMode (flipNext 2)], LoopCtl.running ⟨1, flipNext 2⟩) ∧
    (processEvents 16 ⟨8, 2⟩
        [Event.keyDown Key.keyF, Event.keyDown Key.keyF,
         Event.keyDown Key.keyF, Event.keyDown Key.keyF]).2 =
      LoopCtl.running ⟨1, 2⟩ ∧
    (∀ c ∈ (runLoop 16 initState [[Event.keyDown Key.keyF]]).1, CallModeOK c) :=
  claim_C5_flip_cycle 16 8 2 (by decide) [[Event.keyDown Key.keyF]]

/-- C10: every mouse-wheel event invokes `ViewportSetZoomedArea` exactly
once, including at the clamp boundaries: a wheel-up event at MAX_ZOOM,
or a wheel-down event at factor 1, still calls it with the unchanged
factor and the current cursor position. -/
theorem claim_C10_wheel_always_one_call (maxZoom : Nat) (s : ShellState)
    (wheelY mouseX mouseY : Int) :
    (handleEvent maxZoom s (Event.mouseWheel wheelY mouseX mouseY)).1 =
      [Call.setZoomedArea mouseX mouseY (wheelZoom maxZoom s.zoomFactor wheelY)] ∧
    (wheelY > 0 → s.zoomFactor = maxZoom →
      (handleEvent maxZoom s (Event.mouseWheel wheelY mouseX mouseY)).1 =
        [Call.setZoomedArea mouseX mouseY s.zoomFactor]) ∧
    (wheelY < 0 → s.zoomFactor = 1 →
      (handleEvent maxZoom s (Event.mouseWheel wheelY mouseX mouseY)).1 =
        [Call.setZoomedArea mouseX mouseY s.zoomFactor]) := by
  refine ⟨rfl, ?_, ?_⟩
  · intro hy heq
    have hz : wheelZoom maxZoom s.zoomFactor wheelY = s.zoomFactor := by
      simp [wheelZoom, hy, heq]
    simp [handleEvent, hz]
  · intro hy heq
    have hny : ¬ wheelY > 0 := by omega
    have hz : wheelZoom maxZoom s.zoomFactor wheelY = s.zoomFactor := by
      simp [wheelZoom, hny, heq]
    simp [handleEvent, hz]

/-- Witness for C10: exactly one call at both clamp boundaries with
MAX_ZOOM 8. -/
theorem claim_C10_wheel_always_one_call_witness :
    (handleEvent 8 ⟨8, 0⟩ (Event.mouseWheel 1 3 4)).1 =
      [Call.setZoomedArea 3 4 (wheelZoom 8 8 1)] ∧
    (handleEvent 8 ⟨8, 0⟩ (Event.mouseWheel 1 3 4)).1 =
      [Call.setZoomedArea 3 4 8] ∧
    (handleEvent 8 ⟨1, 0⟩ (Event.mouseWheel (-1) 3 4)).1 =
      [Call.setZoomedArea 3 4 1] :=
  ⟨(claim_C10_wheel_always_one_call 8 ⟨8, 0⟩ 1 3 4).1,
   (claim_C10_wheel_always_one_call 8 ⟨8, 0⟩ 1 3 4).2.1 (by norm_num) rfl,
   (claim_C10_wheel_always_one_call 8 ⟨1, 0⟩ (-1) 3 4).2.2 (by norm_num) rfl⟩

/-- C6: in every main-loop iteration that does not terminate the
program, `ViewportDrawImage` is called exactly once, and only after all
pending events of that iteration have been drained and dispatched to
the Viewport Engine. -/
theorem claim_C6_draw_exactly_once (maxZoom : Nat) (s s' : ShellState)
    (evs : List Event) (cs : List Call)
    (h : frameStep maxZoom s evs = (cs, LoopCtl.running s')) :
    cs = (processEvents maxZoom s evs).1 ++ [Call.drawImage] ∧
    Call.drawImage ∉ (processEvents maxZoom s evs).1 ∧
    cs.count Call.drawImage = 1 := by
  rcases hp : processEvents maxZoom s evs with ⟨cs1, ctl⟩
  have hnd : Call.drawImage ∉ cs1 := by
    have hx := processEvents_no_draw maxZoom evs s
    rw [hp] at hx
    exact hx
  cases ctl with
  | exited st => simp [frameStep, hp] at h
  | running s1 =>
      simp only [frameStep, hp, Prod.mk.injEq, LoopCtl.running.injEq] at h
      obtain ⟨h1, h2⟩ := h
      refine ⟨?_, ?_, ?_⟩
      · exact h1.symm
      · exact hnd
      · rw [← h1, List.count_append]
        have hz : List.count Call.drawImage cs1 = 0 := List.count_eq_zero.mpr hnd
        simp [hz]

/-- Witness for C6: an iteration with one pending `s` keypress. -/
theorem claim_C6_draw_exactly_once_witness :
    ([Call.scaleImage, Call.drawImage] : List Call) =
      (processEvents 16 initState [Event.keyDown Key.keyS]).1 ++ [Call.drawImage] ∧
    Call.drawImage ∉ (processEvents 16 initState [Event.keyDown Key.keyS]).1 ∧
    ([Call.scaleImage, Call.drawImage] : List Call).count Call.drawImage = 1 :=
  claim_C6_draw_exactly_once 16 initState ⟨1, 0⟩ [Event.keyDown Key.keyS]
    [Call.scaleImage, Call.drawImage] rfl

/-- C8: a quit signal (an explicit quit event or a `q` keypress) makes
the loop exit immediately with success status, skipping the remainder
of the current frame: the iteration's calls are exactly those from the
events before the quit signal (independent of the events after it) and
`ViewportDrawImage` is not called for that iteration. -/
theorem claim_C8_quit_skips_frame (maxZoom : Nat) (s : ShellState)
    (pre post : List Event) (e : Event) (hq : isQuitEvent e = true) :
    frameStep maxZoom s (pre ++ e :: post) =
      ((processEvents maxZoom s pre).1, LoopCtl.exited ExitStatus.success) ∧
    Call.drawImage ∉ (frameStep maxZoom s (pre ++ e :: post)).1 := by
  have happ := processEvents_append maxZoom pre (e :: post) s
  rcases hp : processEvents maxZoom s pre with ⟨cs1, ctl⟩
  rw [hp] at happ
  have hnd : Call.drawImage ∉ cs1 := by
    have hx := processEvents_no_draw maxZoom pre s
    rw [hp] at hx
    exact hx
  cases ctl with
  | exited st =>
      have hst : st = ExitStatus.success :=
        processEvents_exit_success maxZoom pre s cs1 st hp
      subst hst
      have happ2 : processEvents maxZoom s (pre ++ e :: post) =
          (cs1, LoopCtl.exited ExitStatus.success) := happ
      constructor
      · simp [frameStep, happ2]
      · simp only [frameStep, happ2]
        exact hnd
  | running s1 =>
      have hq1 : handleEvent maxZoom s1 e = ([], LoopCtl.exited ExitStatus.success) :=
        handleEvent_quit maxZoom s1 e hq
      have hrest : processEvents maxZoom s1 (e :: post) =
          ([], LoopCtl.exited ExitStatus.success) := by
        simp [processEvents, hq1]
      have happ2 : processEvents maxZoom s (pre ++ e :: post) =
          (cs1 ++ (processEvents maxZoom s1 (e :: post)).1,
           (processEvents maxZoom s1 (e :: post)).2) := happ
      rw [hrest] at happ2
      simp only [List.append_nil] at happ2
      constructor
      · simp [frameStep, happ2]
      · simp only [frameStep, happ2]
        exact hnd

/-- Witness for C8: a wheel event pending before the quit event; the
motion event after the quit is never dispatched and no draw happens. -/
theorem claim_C8_quit_skips_frame_witness :
    frameStep 16 initState
        ([Event.mouseWheel 1 2 3] ++ Event.quit :: [Event.mouseMotion 9 9]) =
      ((processEvents 16 initState [Event.mouseWheel 1 2 3]).1,
       LoopCtl.exited ExitStatus.success) ∧
    Call.drawImage ∉
      (frameStep 16 initState
        ([Event.mouseWheel 1 2 3] ++ Event.quit :: [Event.mouseMotion 9 9])).1 :=
  claim_C8_quit_skips_frame 16 initState [Event.mouseWheel 1 2 3]
    [Event.mouseMotion 9 9] Event.quit rfl

/-- C9: at the end of every loop iteration the shell sleeps exactly
(frame period − elapsed time) if and only if the measured elapsed time
is strictly less than the target frame period; when the frame ran
longer it performs no sleep, and the iteration's event processing and
draw are the same whatever the elapsed time (no work is skipped or
dropped to compensate). -/
theorem claim_C9_frame_pacing (maxZoom period : Nat) (s : ShellState)
    (evs : List Event) (elapsed elapsed2 : Nat) :
    ((loopIteration maxZoom period s evs elapsed).2 = some (period - elapsed) ↔
      elapsed < period) ∧
    (period ≤ elapsed → (loopIteration maxZoom period s evs elapsed).2 = none) ∧
    (loopIteration maxZoom period s evs elapsed).1 =
      (loopIteration maxZoom period s evs elapsed2).1 := by
  refine ⟨?_, ?_, rfl⟩
  · show frameSleep period elapsed = some (period - elapsed) ↔ elapsed < period
    unfold frameSleep
    split
    · rename_i hlt
      simpa using hlt
    · rename_i hge
      simp
      omega
  · intro hge
    show frameSleep period elapsed = none
    unfold frameSleep
    rw [if_neg (by omega)]

/-- Witness for C9 with period 17: a slow frame (elapsed 20) does not
sleep and does the same work as a fast one; a fast frame (elapsed 3)
sleeps 17 − 3. -/
theorem claim_C9_frame_pacing_witness :
    ((loopIteration 16 17 initState [] 20).2 = some (17 - 20) ↔ 20 < 17) ∧
    (loopIteration 16 17 initState [] 20).2 = none ∧
    (loopIteration 16 17 initState [] 20).1 = (loopIteration 16 17 initState [] 5).1 ∧
    (loopIteration 16 17 initState [] 3).2 = some (17 - 3) :=
  ⟨(claim_C9_frame_pacing 16 17 initState [] 20 5).1,
   (claim_C9_frame_pacing 16 17 initState [] 20 5).2.1 (by norm_num),
   (claim_C9_frame_pacing 16 17 initState [] 20 5).2.2,
   (claim_C9_frame_pacing 16 17 initState [] 3 5).1.mpr (by norm_num)⟩

/-- C7: the process exit status is success on a normal quit (quit event
or `q` keypress) or when `--help` is the single argument, and failure
when the argument count is not exactly one positional argument, when
the image fails to load, or when the graphics subsystem or viewport
initialization fails; bad arguments and `--help` both print the usage
text (and only they do). -/
theorem claim_C7_exit_codes (argv : List String) (env : Env) (maxZoom : Nat)
    (frames : List (List Event)) (s : ShellState) :
    (argv.length ≠ 2 →
      mainStartup argv env = StartupOutcome.exit true ExitStatus.failure) ∧
    (argv.length = 2 → argv.getD 1 "" = "--help" →
      mainStartup argv env = StartupOutcome.exit true ExitStatus.success) ∧
    (argv.length = 2 → argv.getD 1 "" ≠ "--help" →
      (env.sdlInitOk = false ∨ env.imgInitOk = false ∨ env.imageLoadOk = false ∨
        env.viewportInitOk = false) →
      mainStartup argv env = StartupOutcome.exit false ExitStatus.failure) ∧
    (argv.length = 2 → argv.getD 1 "" ≠ "--help" → env.sdlInitOk = true →
      env.imgInitOk = true → env.imageLoadOk = true → env.viewportInitOk = true →
      mainStartup argv env = StartupOutcome.enterLoop) ∧
    (runLoop maxZoom s ([Event.quit] :: frames)).2 = LoopCtl.exited ExitStatus.success ∧
    (runLoop maxZoom s ([Event.keyDown Key.keyQ] :: frames)).2 =
      LoopCtl.exited ExitStatus.success ∧
    (∀ st, (runLoop maxZoom s frames).2 = LoopCtl.exited st →
      st = ExitStatus.success) := by
  refine ⟨?_, ?_, ?_, ?_, rfl, rfl, ?_⟩
  · intro h
    simp [mainStartup, h]
  · intro h1 h2
    unfold mainStartup
    rw [if_neg (by omega), if_pos h2]
  · intro h1 h2 hfail
    rcases env with ⟨sdl, img, load, vp⟩
    cases sdl <;> cases img <;> cases load <;> cases vp <;>
      simp_all [mainStartup]
  · intro h1 h2 hsdl himg hload hvp
    unfold mainStartup
    rw [if_neg (by omega), if_neg h2, hsdl, himg, hload, hvp]
    rfl
  · intro st h
    rcases hr : runLoop maxZoom s frames with ⟨cs, ctl⟩
    rw [hr] at h
    cases ctl with
    | exited st1 =>
        have hs1 := runLoop_exit_success maxZoom frames s cs st1 hr
        simp only [LoopCtl.exited.injEq] at h
        rw [← h]
        exact hs1
    | running s1 => simp at h

/-- Witness for C7 over concrete argument vectors and collaborator
outcomes. -/
theorem claim_C7_exit_codes_witness :
    mainStartup ["viewer"] ⟨true, true, true, true⟩ =
      StartupOutcome.exit true ExitStatus.failure ∧
    mainStartup ["viewer", "--help"] ⟨true, true, true, true⟩ =
      StartupOutcome.exit true ExitStatus.success ∧
    mainStartup ["viewer", "a.png"] ⟨true, true, false, true⟩ =
      StartupOutcome.exit false ExitStatus.failure ∧
    mainStartup ["viewer", "a.png"] ⟨true, true, true, true⟩ =
      StartupOutcome.enterLoop ∧
    (runLoop 16 initState [[Event.quit]]).2 = LoopCtl.exited ExitStatus.success ∧
    (runLoop 16 initState [[Event.keyDown Key.keyQ]]).2 =
      LoopCtl.exited ExitStatus.success ∧
    (∀ st, (runLoop 16 initState []).2 = LoopCtl.exited st →
      st = ExitStatus.success) :=
  ⟨(claim_C7_exit_codes ["viewer"] ⟨true, true, true, true⟩ 16 [] initState).1
      (by decide),
   (claim_C7_exit_codes ["viewer", "--help"] ⟨true, true, true, true⟩ 16 []
      initState).2.1 rfl rfl,
   (claim_C7_exit_codes ["viewer", "a.png"] ⟨true, true, false, true⟩ 16 []
      initState).2.2.1 rfl (by decide) (Or.inr (Or.inr (Or.inl rfl))),
   (claim_C7_exit_codes ["viewer", "a.png"] ⟨true, true, true, true⟩ 16 []
      initState).2.2.2.1 rfl (by decide) rfl rfl rfl rfl,
   (claim_C7_exit_codes ["x"] ⟨true, true, true, true⟩ 16 [] initState).2.2.2.2.1,
   (claim_C7_exit_codes ["x"] ⟨true, true, true, true⟩ 16 [] initState).2.2.2.2.2.1,
   (claim_C7_exit_codes ["x"] ⟨true, true, true, true⟩ 16 [] initState).2.2.2.2.2.2⟩

end ImageViewer
